import Mathlib

/-!
# Verification of the scentedsolemates-backend swipe/match core

Shallow embedding of the swipe/match consistency engine, the photo
deduplication gate, the rate governor configuration, the city cluster
resolver, the report escalation path, and the registration/profile
interest-set validation, translated from `src/server.js`,
`src/middleware/rateLimiter.js` (which also carries the photo validator)
and `src/routes/legal.js`.

User identifiers are JavaScript strings compared with `<` (lexicographic);
they are embedded as Lean `String` with its linear order.  The relational
store (Supabase) is an external collaborator; its row stores are embedded
as explicit lists and its atomic primitives (`upsert`, conditional insert
under a uniqueness constraint) follow the contracts assumed by the code.
-/

/-- Swipe direction, the closed set `{like, pass}` validated in the
swipe handler (`src/server.js` line 371). -/
inductive Dir
  | like
  | pass
deriving DecidableEq, Repr

/-- A row of the `swipes` table: `{swiper_id, swiped_id, direction}`. -/
structure Swipe where
  swiper : String
  swiped : String
  dir : Dir
deriving DecidableEq, Repr

/-- A row of the `matches` table: `{user1_id, user2_id}`. -/
structure MatchRec where
  user1 : String
  user2 : String
deriving DecidableEq, Repr

/-- The slice of the relational store read and written by the swipe
handler: the `swipes` and `matches` tables. -/
structure DB where
  swipes : List Swipe
  matchRows : List MatchRec
deriving DecidableEq, Repr

/-- Modelled from the spec: the persistence collaborator's
`upsertSwipeDecision` (spec section 6), invoked by `src/server.js` lines
375-384 with conflict target (swiper_id, swiped_id): the new row replaces
any row with the same `(swiper_id, swiped_id)` key. -/
def upsertSwipeList (a t : String) (d : Dir) (l : List Swipe) : List Swipe :=
  ⟨a, t, d⟩ :: l.filter (fun s => !(decide (s.swiper = a ∧ s.swiped = t)))

/-- The swipe upsert lifted to the store. -/
def upsertSwipe (a t : String) (d : Dir) (db : DB) : DB :=
  { db with swipes := upsertSwipeList a t d db.swipes }

/-- The reciprocity read of `src/server.js` lines 392-398: a `swipes`
row with `swiper_id = t`, `swiped_id = a`, and direction like. -/
def hasRecipLike (a t : String) (db : DB) : Bool :=
  db.swipes.any fun s => decide (s.swiper = t ∧ s.swiped = a ∧ s.dir = Dir.like)

/-- The `or`-filter of the existing-match read of `src/server.js`
lines 401-405: the row pairs `a` and `t` in either column order. -/
def isPairMatch (a t : String) (m : MatchRec) : Bool :=
  decide ((m.user1 = a ∧ m.user2 = t) ∨ (m.user1 = t ∧ m.user2 = a))

/-- The existing-match read of `src/server.js` lines 401-405. -/
def findPairMatch (a t : String) (db : DB) : Bool :=
  db.matchRows.any (isPairMatch a t)

/-- Lexicographic comparison of character sequences by code point,
the order JavaScript's `<` applies to strings. -/
def charSeqLt : List Char → List Char → Bool
  | _, [] => false
  | [], _ :: _ => true
  | c :: cs, d :: ds =>
    if c.toNat < d.toNat then true
    else if d.toNat < c.toNat then false
    else charSeqLt cs ds

/-- JavaScript string `<` (lexicographic by code unit), used by the
swipe handler to order the pair. -/
def jsLt (a b : String) : Bool := charSeqLt a.toList b.toList

/-- The canonical (user1, user2) ordering of `src/server.js` lines
408-409: `user1 = min(userId, targetId)`, `user2 = max(userId, targetId)`
under JavaScript string comparison. -/
def canonicalPair (a b : String) : String × String :=
  if jsLt a b then (a, b) else (b, a)

/-- Modelled from the spec: the persistence collaborator's
`insertMatchIfAbsent(pairKey)` (spec section 6) — the `matches` table
carries a uniqueness constraint on the pair key, so the insert of
`src/server.js` lines 411-416 either creates the row or fails with a
conflict error (returned as the `Bool`), never duplicates. -/
def insertMatchIfAbsent (u1 u2 : String) (db : DB) : DB × Bool :=
  if db.matchRows.any (fun m => decide (m.user1 = u1 ∧ m.user2 = u2)) then
    (db, true)
  else
    ({ db with matchRows := ⟨u1, u2⟩ :: db.matchRows }, false)

/-- HTTP-level outcome of the swipe handler. -/
inductive SwipeResp
  | badRequest (msg : String)
  | serverError
  | ok (mtch : Bool)
deriving DecidableEq, Repr

/-- The POST `/api/swipe` handler of `src/server.js` lines 359-432,
with the store's error outcomes injected: `upsertErr` is the swipe
upsert failing (line 386, propagated as 500), `insertErr` is the match
insert failing with an infrastructure error (lines 418-420, logged only).
Mirrors the source order: missing fields, self-swipe, direction
validation, upsert, reciprocity read, existing-match read, conditional
insert, response. -/
def swipeHandler (userId : String) (targetId direction : Option String)
    (upsertErr insertErr : Bool) (db : DB) : SwipeResp × DB :=
  match targetId, direction with
  | none, _ => (.badRequest "Target and direction required", db)
  | some _, none => (.badRequest "Target and direction required", db)
  | some t, some d =>
    if t = userId then (.badRequest "Cannot swipe on yourself", db)
    else if ¬(d = "like" ∨ d = "pass") then (.badRequest "Invalid swipe direction", db)
    else if upsertErr then (.serverError, db)
    else
      let dir := if d = "like" then Dir.like else Dir.pass
      let db1 := upsertSwipe userId t dir db
      if d = "like" then
        if hasRecipLike userId t db1 then
          if findPairMatch userId t db1 then (.ok true, db1)
          else
            let p := canonicalPair userId t
            let ins := if insertErr then (db1, true) else insertMatchIfAbsent p.1 p.2 db1
            -- the handler logs `ins.2` (matchError) and discards it
            (.ok true, ins.1)
        else (.ok false, db1)
      else (.ok false, db1)

theorem char_toNat_inj {c d : Char} (h : c.toNat = d.toNat) : c = d := by
  apply Char.eq_of_val_eq
  apply UInt32.eq_of_toBitVec_eq
  exact BitVec.eq_of_toNat_eq h

theorem charSeqLt_asymm :
    ∀ l₁ l₂, charSeqLt l₁ l₂ = true → charSeqLt l₂ l₁ = false := by
  intro l₁
  induction l₁ with
  | nil =>
    intro l₂ h
    cases l₂ with
    | nil => simp [charSeqLt] at h
    | cons d ds => rfl
  | cons c cs ih =>
    intro l₂ h
    cases l₂ with
    | nil => simp [charSeqLt] at h
    | cons d ds =>
      simp only [charSeqLt] at h ⊢
      rcases Nat.lt_trichotomy c.toNat d.toNat with hcd | hcd | hcd
      · simp [hcd, Nat.not_lt_of_lt hcd]
      · simp only [hcd, Nat.lt_irrefl, if_false] at h ⊢
        exact ih ds h
      · simp [hcd, Nat.not_lt_of_lt hcd] at h

theorem charSeqLt_conn :
    ∀ l₁ l₂, charSeqLt l₁ l₂ = false → charSeqLt l₂ l₁ = false → l₁ = l₂ := by
  intro l₁
  induction l₁ with
  | nil =>
    intro l₂ h₁ _
    cases l₂ with
    | nil => rfl
    | cons d ds => simp [charSeqLt] at h₁
  | cons c cs ih =>
    intro l₂ h₁ h₂
    cases l₂ with
    | nil => simp [charSeqLt] at h₂
    | cons d ds =>
      simp only [charSeqLt] at h₁ h₂
      rcases Nat.lt_trichotomy c.toNat d.toNat with hcd | hcd | hcd
      · simp [hcd] at h₁
      · simp only [hcd, Nat.lt_irrefl, if_false] at h₁ h₂
        rw [char_toNat_inj hcd, ih ds h₁ h₂]
      · simp [hcd] at h₂

theorem string_toList_inj {a b : String} (h : a.toList = b.toList) : a = b := by
  cases a with
  | mk da =>
    cases b with
    | mk db => exact congrArg String.mk h

theorem jsLt_asymm {a b : String} (h : jsLt a b = true) : jsLt b a = false :=
  charSeqLt_asymm _ _ h

theorem jsLt_conn {a b : String} (h₁ : jsLt a b = false) (h₂ : jsLt b a = false) :
    a = b :=
  string_toList_inj (charSeqLt_conn _ _ h₁ h₂)

theorem canonicalPair_comm (a b : String) : canonicalPair a b = canonicalPair b a := by
  unfold canonicalPair
  cases hab : jsLt a b
  · cases hba : jsLt b a
    · have hEq := jsLt_conn hab hba
      subst hEq
      simp
    · simp
  · rw [jsLt_asymm hab]
    simp

theorem canonicalPair_cases (a b : String) :
    canonicalPair a b = (a, b) ∨ canonicalPair a b = (b, a) := by
  unfold canonicalPair
  cases jsLt a b <;> simp

/-- C3: the canonical pair key is symmetric and injective over unordered
pairs. -/
theorem canonicalPair_symm_injective (a b c d : String) :
    canonicalPair a b = canonicalPair b a ∧
      (canonicalPair a b = canonicalPair c d →
        (a = c ∧ b = d) ∨ (a = d ∧ b = c)) := by
  refine ⟨canonicalPair_comm a b, ?_⟩
  intro h
  rcases canonicalPair_cases a b with h₁ | h₁ <;>
    rcases canonicalPair_cases c d with h₂ | h₂ <;>
      rw [h₁, h₂] at h <;> simp only [Prod.mk.injEq] at h <;> tauto

/-- Witness for C3 at concrete identifiers. -/
theorem canonicalPair_symm_injective_witness :
    canonicalPair "alice" "bob" = canonicalPair "bob" "alice" ∧
      (canonicalPair "alice" "bob" = canonicalPair "carol" "dave" →
        ("alice" = "carol" ∧ "bob" = "dave") ∨
          ("alice" = "dave" ∧ "bob" = "carol")) :=
  canonicalPair_symm_injective "alice" "bob" "carol" "dave"

/-- Progress of one in-flight like request through the store operations
of the swipe handler's like path (`src/server.js` lines 375-424):
upsert recorded, reciprocity read returned `r`, existing-match read
returned `e`, response `{match: m}` sent. -/
inductive RState
  | start
  | upserted
  | reciped (r : Bool)
  | existed (e : Bool)
  | done (m : Bool)
deriving DecidableEq, Repr

/-- One store operation of the like path of the swipe handler, for the
request "`a` likes `t`".  Each constructor of `RState` performs the next
read or write exactly as the handler issues it. -/
def stepReq (a t : String) (db : DB) : RState → DB × RState
  | .start => (upsertSwipe a t Dir.like db, .upserted)
  | .upserted => (db, .reciped (hasRecipLike a t db))
  | .reciped true => (db, .existed (findPairMatch a t db))
  | .reciped false => (db, .done false)
  | .existed true => (db, .done true)
  | .existed false =>
      ((insertMatchIfAbsent (canonicalPair a t).1 (canonicalPair a t).2 db).1, .done true)
  | .done m => (db, .done m)

/-- Joint state of the store and the two racing like requests
(A likes B, running as `s1`, and B likes A, running as `s2`). -/
structure Sys where
  db : DB
  s1 : RState
  s2 : RState
deriving DecidableEq, Repr

/-- Scheduler step: `true` advances request 1 (A likes B), `false`
advances request 2 (B likes A). -/
def sysStep (A B : String) (w : Bool) (σ : Sys) : Sys :=
  if w then
    let r := stepReq A B σ.db σ.s1
    ⟨r.1, r.2, σ.s2⟩
  else
    let r := stepReq B A σ.db σ.s2
    ⟨r.1, σ.s1, r.2⟩

/-- Run an interleaving of the two like requests. -/
def runSched (A B : String) : List Bool → Sys → Sys
  | [], σ => σ
  | w :: ws, σ => runSched A B ws (sysStep A B w σ)

/-- Initial state: no swipes between the pair, no match record. -/
def initSys : Sys := ⟨⟨[], []⟩, .start, .start⟩

theorem hasRecipLike_iff (a t : String) (db : DB) :
    hasRecipLike a t db = true ↔ (⟨t, a, Dir.like⟩ : Swipe) ∈ db.swipes := by
  unfold hasRecipLike
  rw [List.any_eq_true]
  constructor
  · rintro ⟨s, hs, hp⟩
    rw [decide_eq_true_eq] at hp
    obtain ⟨hp1, hp2, hp3⟩ := hp
    cases s with
    | mk sw sd dr =>
      subst hp1; subst hp2; subst hp3
      exact hs
  · intro h
    exact ⟨_, h, by simp⟩

theorem findPairMatch_ne_nil {a t : String} {db : DB}
    (h : findPairMatch a t db = true) : db.matchRows ≠ [] := by
  intro hnil
  unfold findPairMatch at h
  rw [hnil] at h
  simp at h

theorem isPairMatch_canonical (a b : String) :
    isPairMatch a b ⟨(canonicalPair a b).1, (canonicalPair a b).2⟩ = true := by
  rcases canonicalPair_cases a b with h | h <;> rw [h] <;> simp [isPairMatch]

theorem mem_upsertSwipeList_self (a t : String) (d : Dir) (l : List Swipe) :
    (⟨a, t, d⟩ : Swipe) ∈ upsertSwipeList a t d l :=
  List.mem_cons_self _ _

theorem mem_upsertSwipeList_other {a t : String} {d : Dir} {l : List Swipe}
    {s : Swipe} (h : ¬(s.swiper = a ∧ s.swiped = t)) :
    s ∈ upsertSwipeList a t d l ↔ s ∈ l := by
  unfold upsertSwipeList
  constructor
  · intro hm
    rcases List.mem_cons.mp hm with heq | hmem
    · exfalso
      apply h
      rw [heq]
      exact ⟨rfl, rfl⟩
    · exact (List.mem_filter.mp hmem).1
  · intro hm
    apply List.mem_cons.mpr
    right
    apply List.mem_filter.mpr
    refine ⟨hm, ?_⟩
    simp [h]

theorem upsertSwipe_matchRows (a t : String) (d : Dir) (db : DB) :
    (upsertSwipe a t d db).matchRows = db.matchRows := rfl

theorem insertMatchIfAbsent_swipes (u1 u2 : String) (db : DB) :
    (insertMatchIfAbsent u1 u2 db).1.swipes = db.swipes := by
  unfold insertMatchIfAbsent
  split <;> rfl

/-- Invariant of one side of the race "a likes t": the request's own like
row is in the store exactly when its upsert has run; a positive
reciprocity read means the other side already upserted; a positive
existing-match read or a sent `{match:true}` means a match row exists. -/
structure SideInv (a t : String) (db : DB) (me them : RState) : Prop where
  own : (⟨a, t, Dir.like⟩ : Swipe) ∈ db.swipes ↔ me ≠ RState.start
  recip : me = RState.reciped true → them ≠ RState.start
  matched : (me = RState.existed true ∨ me = RState.done true) → db.matchRows ≠ []

/-- The match rows for the racing pair: none yet, or exactly the one
canonical record (the persistence-layer uniqueness constraint). -/
abbrev MatchClause (a t : String) (db : DB) : Prop :=
  db.matchRows = [] ∨
    db.matchRows = [⟨(canonicalPair a t).1, (canonicalPair a t).2⟩]

/-- A request that has read an absent reciprocal like (and so answers
`{match:false}`). -/
abbrev RBad (s : RState) : Prop := s = RState.reciped false ∨ s = RState.done false

/-- Joint invariant of the race between "A likes B" and "B likes A". -/
structure RaceInv (A B : String) (σ : Sys) : Prop where
  side1 : SideInv A B σ.db σ.s1 σ.s2
  side2 : SideInv B A σ.db σ.s2 σ.s1
  mc : MatchClause A B σ.db
  notBothFalse : ¬(RBad σ.s1 ∧ RBad σ.s2)

theorem matchClause_comm {a t : String} {db : DB} (h : MatchClause a t db) :
    MatchClause t a db := by
  unfold MatchClause at h ⊢
  rw [canonicalPair_comm t a]
  exact h

theorem insertMatchIfAbsent_canonical (a t : String) (db : DB)
    (hm : MatchClause a t db) :
    (insertMatchIfAbsent (canonicalPair a t).1 (canonicalPair a t).2 db).1.matchRows
      = [⟨(canonicalPair a t).1, (canonicalPair a t).2⟩] := by
  rcases hm with h | h <;> unfold insertMatchIfAbsent <;> rw [h] <;> simp [h]

theorem stepReq_preserves (a t : String) (hat : a ≠ t) (db : DB) (me them : RState)
    (h1 : SideInv a t db me them) (h2 : SideInv t a db them me)
    (hm : MatchClause a t db) (hb : ¬(RBad me ∧ RBad them)) :
    SideInv a t (stepReq a t db me).1 (stepReq a t db me).2 them ∧
      SideInv t a (stepReq a t db me).1 them (stepReq a t db me).2 ∧
      MatchClause a t (stepReq a t db me).1 ∧
      ¬(RBad (stepReq a t db me).2 ∧ RBad them) := by
  cases me with
  | start =>
    simp only [stepReq]
    refine ⟨⟨?_, ?_, ?_⟩, ⟨?_, ?_, ?_⟩, ?_, ?_⟩
    · constructor
      · intro _
        simp
      · intro _
        exact mem_upsertSwipeList_self a t Dir.like db.swipes
    · intro hh
      exact absurd hh (by simp)
    · intro hh
      rcases hh with hh | hh <;> exact absurd hh (by simp)
    · show (⟨t, a, Dir.like⟩ : Swipe) ∈ upsertSwipeList a t Dir.like db.swipes ↔ _
      rw [mem_upsertSwipeList_other (by intro hh; exact hat hh.1.symm)]
      exact h2.own
    · intro _
      simp
    · exact h2.matched
    · exact hm
    · simp [RBad]
  | upserted =>
    simp only [stepReq]
    refine ⟨⟨?_, ?_, ?_⟩, ⟨?_, ?_, ?_⟩, ?_, ?_⟩
    · constructor
      · intro _
        simp
      · intro _
        exact h1.own.mpr (by simp)
    · intro hh
      injection hh with hr
      exact h2.own.mp ((hasRecipLike_iff a t db).mp hr)
    · intro hh
      rcases hh with hh | hh <;> exact absurd hh (by simp)
    · exact h2.own
    · intro _
      simp
    · exact h2.matched
    · exact hm
    · rintro ⟨hbad1, hbad2⟩
      rcases hbad1 with hb1 | hb1
      · injection hb1 with hr
        have hnot : ¬((⟨t, a, Dir.like⟩ : Swipe) ∈ db.swipes) := by
          intro hmem
          rw [(hasRecipLike_iff a t db).mpr hmem] at hr
          exact absurd hr (by simp)
        have hstart : them = RState.start := by
          by_contra hne
          exact hnot (h2.own.mpr hne)
        rcases hbad2 with hb2 | hb2 <;> rw [hstart] at hb2 <;>
          exact absurd hb2 (by simp)
      · exact absurd hb1 (by simp)
  | reciped r =>
    cases r with
    | true =>
      simp only [stepReq]
      refine ⟨⟨?_, ?_, ?_⟩, ⟨?_, ?_, ?_⟩, ?_, ?_⟩
      · constructor
        · intro _
          simp
        · intro _
          exact h1.own.mpr (by simp)
      · intro hh
        exact absurd hh (by simp)
      · intro hh
        rcases hh with hh | hh
        · injection hh with he
          exact findPairMatch_ne_nil he
        · exact absurd hh (by simp)
      · exact h2.own
      · intro _
        simp
      · exact h2.matched
      · exact hm
      · simp [RBad]
    | false =>
      simp only [stepReq]
      refine ⟨⟨?_, ?_, ?_⟩, ⟨?_, ?_, ?_⟩, ?_, ?_⟩
      · constructor
        · intro _
          simp
        · intro _
          exact h1.own.mpr (by simp)
      · intro hh
        exact absurd hh (by simp)
      · intro hh
        rcases hh with hh | hh <;> exact absurd hh (by simp)
      · exact h2.own
      · intro _
        simp
      · exact h2.matched
      · exact hm
      · rintro ⟨_, hbad2⟩
        exact hb ⟨Or.inl rfl, hbad2⟩
  | existed e =>
    cases e with
    | true =>
      simp only [stepReq]
      refine ⟨⟨?_, ?_, ?_⟩, ⟨?_, ?_, ?_⟩, ?_, ?_⟩
      · constructor
        · intro _
          simp
        · intro _
          exact h1.own.mpr (by simp)
      · intro hh
        exact absurd hh (by simp)
      · intro _
        exact h1.matched (Or.inl rfl)
      · exact h2.own
      · intro _
        simp
      · exact h2.matched
      · exact hm
      · simp [RBad]
    | false =>
      simp only [stepReq]
      have hcan := insertMatchIfAbsent_canonical a t db hm
      refine ⟨⟨?_, ?_, ?_⟩, ⟨?_, ?_, ?_⟩, ?_, ?_⟩
      · constructor
        · intro _
          simp
        · intro _
          rw [show (insertMatchIfAbsent (canonicalPair a t).1
              (canonicalPair a t).2 db).1.swipes = db.swipes from
            insertMatchIfAbsent_swipes _ _ _]
          exact h1.own.mpr (by simp)
      · intro hh
        exact absurd hh (by simp)
      · intro _
        rw [hcan]
        simp
      · rw [show (insertMatchIfAbsent (canonicalPair a t).1
            (canonicalPair a t).2 db).1.swipes = db.swipes from
          insertMatchIfAbsent_swipes _ _ _]
        exact h2.own
      · intro _
        simp
      · intro _
        rw [hcan]
        simp
      · right
        exact hcan
      · simp [RBad]
  | done m =>
    simp only [stepReq]
    exact ⟨h1, h2, hm, hb⟩

theorem raceInv_step (A B : String) (hAB : A ≠ B) (w : Bool) (σ : Sys)
    (h : RaceInv A B σ) : RaceInv A B (sysStep A B w σ) := by
  obtain ⟨h1, h2, hm, hb⟩ := h
  cases w with
  | true =>
    have res := stepReq_preserves A B hAB σ.db σ.s1 σ.s2 h1 h2 hm hb
    exact ⟨res.1, res.2.1, res.2.2.1, res.2.2.2⟩
  | false =>
    have hm' : MatchClause B A σ.db := matchClause_comm hm
    have hb' : ¬(RBad σ.s2 ∧ RBad σ.s1) := fun hx => hb ⟨hx.2, hx.1⟩
    have res := stepReq_preserves B A (Ne.symm hAB) σ.db σ.s2 σ.s1 h2 h1 hm' hb'
    exact ⟨res.2.1, res.1, matchClause_comm res.2.2.1,
      fun hx => res.2.2.2 ⟨hx.2, hx.1⟩⟩

theorem raceInv_init (A B : String) : RaceInv A B initSys := by
  refine ⟨⟨?_, ?_, ?_⟩, ⟨?_, ?_, ?_⟩, ?_, ?_⟩ <;> simp [initSys, RBad, MatchClause]

theorem raceInv_run (A B : String) (hAB : A ≠ B) :
    ∀ (sched : List Bool) (σ : Sys), RaceInv A B σ →
      RaceInv A B (runSched A B sched σ) := by
  intro sched
  induction sched with
  | nil =>
    intro σ h
    exact h
  | cons w ws ih =>
    intro σ h
    exact ih _ (raceInv_step A B hAB w σ h)

/-- C1 (amended): for distinct users A and B and any interleaving of the
two like requests that runs both to completion, exactly one match record
exists afterwards for the unordered pair (the canonical record), and at
least one of the two calls answers `{match: true}` — including the
interleavings where a request finds the record already created by the
other side.  (The original claim, that both calls always answer
`{match: true}`, fails in sequential order: see the counterexample.) -/
theorem swipe_race_exactly_one_match (A B : String) (hAB : A ≠ B)
    (sched : List Bool) (m1 m2 : Bool)
    (h1 : (runSched A B sched initSys).s1 = RState.done m1)
    (h2 : (runSched A B sched initSys).s2 = RState.done m2) :
    (runSched A B sched initSys).db.matchRows
        = [⟨(canonicalPair A B).1, (canonicalPair A B).2⟩] ∧
      (m1 = true ∨ m2 = true) := by
  have hinv := raceInv_run A B hAB sched initSys (raceInv_init A B)
  obtain ⟨hi1, hi2, hm, hb⟩ := hinv
  have hone : m1 = true ∨ m2 = true := by
    by_contra hcon
    push_neg at hcon
    obtain ⟨hm1, hm2⟩ := hcon
    have hm1' : m1 = false := by
      cases m1
      · rfl
      · exact absurd rfl hm1
    have hm2' : m2 = false := by
      cases m2
      · rfl
      · exact absurd rfl hm2
    apply hb
    constructor
    · right
      rw [h1, hm1']
    · right
      rw [h2, hm2']
  refine ⟨?_, hone⟩
  have hne : (runSched A B sched initSys).db.matchRows ≠ [] := by
    rcases hone with ht | ht
    · exact hi1.matched (Or.inr (by rw [h1, ht]))
    · exact hi2.matched (Or.inr (by rw [h2, ht]))
  rcases hm with hnil | hcp
  · exact absurd hnil hne
  · exact hcp

/-- Witness for the amended C1 theorem: the sequential schedule
(A's request fully first, then B's). -/
theorem swipe_race_exactly_one_match_witness :
    (runSched "alice" "bob" [true, true, true, false, false, false, false]
          initSys).db.matchRows
        = [⟨(canonicalPair "alice" "bob").1, (canonicalPair "alice" "bob").2⟩] ∧
      (false = true ∨ true = true) :=
  swipe_race_exactly_one_match "alice" "bob" (by decide)
    [true, true, true, false, false, false, false] false true
    (by decide) (by decide)

/-- Counterexample to C1 as stated: with an empty store, "alice likes
bob" answers `{match:false}` (the reciprocal like does not exist yet),
then "bob likes alice" answers `{match:true}` and exactly one match
record exists — so in sequential order the two calls do NOT both return
`{match:true}`. -/
theorem swipe_both_true_counterexample :
    (swipeHandler "alice" (some "bob") (some "like") false false
        ⟨[], []⟩).1 = SwipeResp.ok false ∧
      (swipeHandler "bob" (some "alice") (some "like") false false
          (swipeHandler "alice" (some "bob") (some "like") false false
              ⟨[], []⟩).2).1 = SwipeResp.ok true ∧
      (swipeHandler "bob" (some "alice") (some "like") false false
          (swipeHandler "alice" (some "bob") (some "like") false false
              ⟨[], []⟩).2).2.matchRows = [⟨"alice", "bob"⟩] := by
  decide

theorem filter_upsert_self (a t : String) (d : Dir) (l : List Swipe) :
    (upsertSwipeList a t d l).filter
      (fun s => decide (s.swiper = a ∧ s.swiped = t)) = [⟨a, t, d⟩] := by
  unfold upsertSwipeList
  rw [List.filter_cons_of_pos (by simp)]
  rw [List.filter_filter]
  have hfalse : ∀ s : Swipe,
      (decide (s.swiper = a ∧ s.swiped = t) &&
        !(decide (s.swiper = a ∧ s.swiped = t))) = false := by
    intro s
    cases decide (s.swiper = a ∧ s.swiped = t) <;> rfl
  simp [hfalse]

theorem filter_upsert_other (a t a' t' : String) (d : Dir) (l : List Swipe)
    (hdiff : ¬(a = a' ∧ t = t')) :
    (upsertSwipeList a t d l).filter
        (fun s => decide (s.swiper = a' ∧ s.swiped = t'))
      = l.filter (fun s => decide (s.swiper = a' ∧ s.swiped = t')) := by
  unfold upsertSwipeList
  rw [List.filter_cons_of_neg (by simpa using hdiff)]
  rw [List.filter_filter]
  apply List.filter_congr
  intro s _
  by_cases hp : s.swiper = a' ∧ s.swiped = t'
  · have hnp : ¬(s.swiper = a ∧ s.swiped = t) := by
      rintro ⟨u1, u2⟩
      exact hdiff ⟨u1.symm.trans hp.1, u2.symm.trans hp.2⟩
    have hd : decide (s.swiper = a ∧ s.swiped = t) = false := by
      simpa using hnp
    have hd' : decide (s.swiper = a' ∧ s.swiped = t') = true := by
      simpa using hp
    rw [hd, hd']
    rfl
  · simp [hp]

/-- C4: recording a swipe for the ordered pair (a, t) replaces any prior
decision — afterwards exactly the one row `⟨a, t, d⟩` exists for that
ordered pair (the new direction is retained), and the rows of every other
ordered pair are untouched. -/
theorem swipe_upsert_unique (a t a' t' : String) (d : Dir) (l : List Swipe)
    (hdiff : (a', t') ≠ (a, t)) :
    (upsertSwipeList a t d l).filter
        (fun s => decide (s.swiper = a ∧ s.swiped = t)) = [⟨a, t, d⟩] ∧
      (upsertSwipeList a t d l).filter
          (fun s => decide (s.swiper = a' ∧ s.swiped = t'))
        = l.filter (fun s => decide (s.swiper = a' ∧ s.swiped = t')) := by
  have hdiff' : ¬(a' = a ∧ t' = t) := by
    simpa [Prod.ext_iff] using hdiff
  exact ⟨filter_upsert_self a t d l,
    filter_upsert_other a t a' t' d l (fun h => hdiff' ⟨h.1.symm, h.2.symm⟩)⟩

/-- Witness for C4: alice re-swipes bob (pass became like); the stored
decision is replaced and carol's row is untouched. -/
theorem swipe_upsert_unique_witness :
    (upsertSwipeList "alice" "bob" Dir.like
          [⟨"alice", "bob", Dir.pass⟩, ⟨"carol", "bob", Dir.like⟩]).filter
        (fun s => decide (s.swiper = "alice" ∧ s.swiped = "bob"))
        = [⟨"alice", "bob", Dir.like⟩] ∧
      (upsertSwipeList "alice" "bob" Dir.like
            [⟨"alice", "bob", Dir.pass⟩, ⟨"carol", "bob", Dir.like⟩]).filter
          (fun s => decide (s.swiper = "carol" ∧ s.swiped = "bob"))
        = [⟨"alice", "bob", Dir.pass⟩, ⟨"carol", "bob", Dir.like⟩].filter
            (fun s => decide (s.swiper = "carol" ∧ s.swiped = "bob")) :=
  swipe_upsert_unique "alice" "bob" "carol" "bob" Dir.like
    [⟨"alice", "bob", Dir.pass⟩, ⟨"carol", "bob", Dir.like⟩] (by decide)

/-- C6 counterexample: bob already likes alice and no match exists;
alice's like observes reciprocity, the match insert fails with an
infrastructure error, and yet the handler answers 200 `{match:true}`
while no match record exists — the failure is swallowed, not propagated
as a retryable failure. -/
theorem match_insert_error_counterexample :
    (swipeHandler "alice" (some "bob") (some "like") false true
        ⟨[⟨"bob", "alice", Dir.like⟩], []⟩).1 = SwipeResp.ok true ∧
      (swipeHandler "alice" (some "bob") (some "like") false true
          ⟨[⟨"bob", "alice", Dir.like⟩], []⟩).2.matchRows = [] := by
  decide

/-- C6 (amended): an infrastructure error from the match insert is
logged and swallowed — whenever a like observes reciprocity and no
existing match, the handler still answers `{match:true}` and leaves the
store without the match row; only a swipe-upsert error is propagated
(500 response, store unchanged). -/
theorem match_insert_error_swallowed (u t : String) (db : DB)
    (hne : t ≠ u)
    (hrec : hasRecipLike u t (upsertSwipe u t Dir.like db) = true)
    (hex : findPairMatch u t (upsertSwipe u t Dir.like db) = false) :
    swipeHandler u (some t) (some "like") false true db
        = (SwipeResp.ok true, upsertSwipe u t Dir.like db) ∧
      swipeHandler u (some t) (some "like") true true db
        = (SwipeResp.serverError, db) := by
  constructor
  · unfold swipeHandler
    simp [hne, hrec, hex]
  · unfold swipeHandler
    simp [hne]

/-- Witness for the amended C6 theorem at a concrete store. -/
theorem match_insert_error_swallowed_witness :
    swipeHandler "alice" (some "bob") (some "like") false true
          ⟨[⟨"bob", "alice", Dir.like⟩], []⟩
        = (SwipeResp.ok true,
            upsertSwipe "alice" "bob" Dir.like
              ⟨[⟨"bob", "alice", Dir.like⟩], []⟩) ∧
      swipeHandler "alice" (some "bob") (some "like") true true
          ⟨[⟨"bob", "alice", Dir.like⟩], []⟩
        = (SwipeResp.serverError, ⟨[⟨"bob", "alice", Dir.like⟩], []⟩) :=
  match_insert_error_swallowed "alice" "bob"
    ⟨[⟨"bob", "alice", Dir.like⟩], []⟩ (by decide) (by decide) (by decide)

/-- A row of the `photos` table as read by the validator:
`{user_id, photo_hash}`. -/
structure PhotoRow where
  user_id : String
  photo_hash : String
deriving DecidableEq, Repr

/-- The `maybeSingle()` hash lookup of the photo validator (the
photo-validator half of `src/middleware/rateLimiter.js`, lines 80-84):
the first photo row whose `photo_hash` equals the fingerprint. -/
def lookupHash (h : String) (store : List PhotoRow) : Option PhotoRow :=
  store.find? (fun p => decide (p.photo_hash = h))

/-- Outcome of an upload attempt, as decided by `validatePhotoUniqueness`
(`src/middleware/rateLimiter.js` lines 54-124) composed with the photo
insert of the upload handler (`src/server.js` lines 664-672). -/
inductive UploadOutcome
  | accepted
  | rejectedNoFile
  | rejectedOwnDuplicate
  | rejectedClaimed
  | rejectedUnavailable
deriving DecidableEq, Repr

/-- The upload pipeline: `validatePhotoUniqueness`, then the photo-row
insert of the upload handler.  `file` carries the SHA-256 fingerprint of
the uploaded bytes when a file is present (content is represented by its
fingerprint; spec section 4.2 assumes collision resistance, so
byte-identical files share it); `lookupErr` is the error code of the
hash lookup when the store errors (the code treats `PGRST116`, "no rows
found", as benign and then sees null data); `thrown` models the
validator's catch branch.  No file → the validator calls `next()` and
the handler answers 400 before any insert; a non-benign lookup error or
a throw → 503, store untouched; a row owned by the requester → 400; a
row owned by someone else → 409; otherwise the validator passes and the
handler inserts the row. -/
def uploadPipeline (u : String) (file : Option String)
    (lookupErr : Option String) (thrown : Bool) (store : List PhotoRow) :
    UploadOutcome × List PhotoRow :=
  match file with
  | none => (.rejectedNoFile, store)
  | some h =>
    if thrown then (.rejectedUnavailable, store)
    else
      match lookupErr with
      | some code =>
        if code ≠ "PGRST116" then (.rejectedUnavailable, store)
        else (.accepted, store ++ [⟨u, h⟩])
      | none =>
        match lookupHash h store with
        | some p =>
          if p.user_id = u then (.rejectedOwnDuplicate, store)
          else (.rejectedClaimed, store)
        | none => (.accepted, store ++ [⟨u, h⟩])

/-- C2: the dedup gate fails closed — an infrastructure error from the
fingerprint lookup (any error code other than the benign "no rows found"
code) or a thrown validation error rejects the upload with the retryable
503 outcome and leaves the store untouched; an upload is accepted only
when no error was raised and the lookup conclusively found nothing, or
the store reported the benign no-rows code. -/
theorem upload_fail_closed (u h code : String) (file : Option String)
    (lookupErr : Option String) (thrown : Bool) (store : List PhotoRow)
    (hcode : code ≠ "PGRST116") :
    uploadPipeline u (some h) (some code) false store
        = (UploadOutcome.rejectedUnavailable, store) ∧
      uploadPipeline u (some h) lookupErr true store
        = (UploadOutcome.rejectedUnavailable, store) ∧
      ((uploadPipeline u file lookupErr thrown store).1 = UploadOutcome.accepted →
        thrown = false ∧ file ≠ none ∧
          ((lookupErr = none ∧ lookupHash (file.getD "") store = none) ∨
            lookupErr = some "PGRST116")) := by
  refine ⟨?_, ?_, ?_⟩
  · unfold uploadPipeline
    simp [hcode]
  · unfold uploadPipeline
    simp
  · intro hacc
    cases file with
    | none => simp [uploadPipeline] at hacc
    | some hh =>
      cases thrown with
      | true => simp [uploadPipeline] at hacc
      | false =>
        refine ⟨rfl, by simp, ?_⟩
        cases lookupErr with
        | some code' =>
          by_cases hc : code' = "PGRST116"
          · right
            rw [hc]
          · simp [uploadPipeline, hc] at hacc
        | none =>
          left
          refine ⟨rfl, ?_⟩
          cases hfind : lookupHash hh store with
          | none => exact hfind
          | some p =>
            by_cases hpu : p.user_id = u <;>
              simp [uploadPipeline, hfind, hpu] at hacc

/-- Witness for C2 at concrete inputs. -/
theorem upload_fail_closed_witness :
    uploadPipeline "alice" (some "h1") (some "ECONNREFUSED") false []
        = (UploadOutcome.rejectedUnavailable, []) ∧
      uploadPipeline "alice" (some "h1") none true []
        = (UploadOutcome.rejectedUnavailable, []) ∧
      ((uploadPipeline "alice" (some "h1") none false []).1
          = UploadOutcome.accepted →
        false = false ∧ (some "h1" : Option String) ≠ none ∧
          (((none : Option String) = none ∧
              lookupHash ((some "h1" : Option String).getD "") [] = none) ∨
            (none : Option String) = some "PGRST116")) :=
  upload_fail_closed "alice" "h1" "ECONNREFUSED" (some "h1") none false []
    (by decide)

theorem lookupHash_append_of_found {h : String} {store : List PhotoRow}
    {p : PhotoRow} (hfound : lookupHash h store = some p)
    (rest : List PhotoRow) : lookupHash h (store ++ rest) = some p := by
  unfold lookupHash at hfound ⊢
  rw [List.find?_append, hfound]
  rfl

/-- C5: for a fingerprint with no registered owner, the first upload by
u1 is accepted and registers (fingerprint, u1); a re-upload of the same
content by u1 is rejected as an own-duplicate (400) with the store
unchanged; an upload of the same content by a different user u2 is
rejected with the distinct cross-owner outcome (409) with the store
unchanged; and the fingerprint-to-owner mapping is write-once — any
upload operation whatsoever leaves an already-resolved owner lookup
unchanged (first writer wins, since inserts append and the lookup takes
the first row). -/
theorem fingerprint_first_writer_wins (h u1 u2 u : String)
    (file lookupErr : Option String) (thrown : Bool)
    (store store2 : List PhotoRow) (p : PhotoRow)
    (hfresh : lookupHash h store = none) (hu : u2 ≠ u1)
    (hp : lookupHash h store2 = some p) :
    uploadPipeline u1 (some h) none false store
        = (UploadOutcome.accepted, store ++ [⟨u1, h⟩]) ∧
      uploadPipeline u1 (some h) none false (store ++ [⟨u1, h⟩])
        = (UploadOutcome.rejectedOwnDuplicate, store ++ [⟨u1, h⟩]) ∧
      uploadPipeline u2 (some h) none false (store ++ [⟨u1, h⟩])
        = (UploadOutcome.rejectedClaimed, store ++ [⟨u1, h⟩]) ∧
      lookupHash h ((uploadPipeline u file lookupErr thrown store2).2) = some p := by
  have hreg : lookupHash h (store ++ [⟨u1, h⟩]) = some ⟨u1, h⟩ := by
    unfold lookupHash at hfresh ⊢
    rw [List.find?_append, hfresh]
    simp
  refine ⟨?_, ?_, ?_, ?_⟩
  · simp [uploadPipeline, hfresh]
  · simp [uploadPipeline, hreg]
  · have hne : ¬((⟨u1, h⟩ : PhotoRow).user_id = u2) := fun e => hu e.symm
    simp [uploadPipeline, hreg, hne]
  · cases file with
    | none => exact hp
    | some hh =>
      cases thrown with
      | true => exact hp
      | false =>
        cases lookupErr with
        | some code =>
          by_cases hc : code = "PGRST116"
          · simp only [uploadPipeline, hc, ne_eq, not_true_eq_false, if_false]
            exact lookupHash_append_of_found hp _
          · simp [uploadPipeline, hc]
            exact hp
        | none =>
          cases hfind : lookupHash hh store2 with
          | some q =>
            by_cases hq : q.user_id = u <;>
              simp [uploadPipeline, hfind, hq] <;> exact hp
          | none =>
            simp only [uploadPipeline, hfind]
            exact lookupHash_append_of_found hp _

/-- Witness for C5 at concrete inputs. -/
theorem fingerprint_first_writer_wins_witness :
    uploadPipeline "alice" (some "h1") none false []
        = (UploadOutcome.accepted, [] ++ [⟨"alice", "h1"⟩]) ∧
      uploadPipeline "alice" (some "h1") none false ([] ++ [⟨"alice", "h1"⟩])
        = (UploadOutcome.rejectedOwnDuplicate, [] ++ [⟨"alice", "h1"⟩]) ∧
      uploadPipeline "bob" (some "h1") none false ([] ++ [⟨"alice", "h1"⟩])
        = (UploadOutcome.rejectedClaimed, [] ++ [⟨"alice", "h1"⟩]) ∧
      lookupHash "h1"
          ((uploadPipeline "bob" (some "h1") none false
              [⟨"alice", "h1"⟩]).2) = some ⟨"alice", "h1"⟩ :=
  fingerprint_first_writer_wins "h1" "alice" "bob" "bob" (some "h1") none
    false [] [⟨"alice", "h1"⟩] ⟨"alice", "h1"⟩ (by decide) (by decide)
    (by decide)

/-- JavaScript's whitespace class for the ASCII range (the `\s` of the
cleaning regex and the characters `trim` removes). -/
def wsJS (c : Char) : Bool :=
  decide (c = ' ' ∨ c = '\t' ∨ c = '\n' ∨ c = '\r' ∨
    c = '\x0b' ∨ c = '\x0c')

/-- Lowercasing (toLowerCase) over the ASCII identifiers this code handles. -/
def jsToLower (s : String) : String := String.mk (s.toList.map Char.toLower)

/-- Trimming (trim): strip leading and trailing whitespace. -/
def trimJS (l : List Char) : List Char :=
  ((l.dropWhile wsJS).reverse.dropWhile wsJS).reverse

/-- The whitespace-collapsing replace step: every whitespace run
becomes a single space.  The flag records whether the previous
character was part of a run already replaced. -/
def collapseWSAux : List Char → Bool → List Char
  | [], _ => []
  | c :: rest, inRun =>
    if wsJS c then
      if inRun then collapseWSAux rest true
      else ' ' :: collapseWSAux rest true
    else c :: collapseWSAux rest false

/-- The `GTA_CITIES` alias table of `src/server.js` lines 17-31,
key order preserved. -/
def GTA_CITIES : List (String × String) :=
  [("toronto", "toronto"), ("tdot", "toronto"), ("t.o.", "toronto"),
   ("the 6", "toronto"), ("the 6ix", "toronto"), ("yyz", "toronto"),
   ("mississauga", "toronto"), ("sauga", "toronto"),
   ("missisauga", "toronto"), ("mississauaga", "toronto"),
   ("brampton", "toronto"), ("bramption", "toronto"),
   ("vaughan", "toronto"), ("vaughn", "toronto"),
   ("markham", "toronto"),
   ("richmond hill", "toronto"), ("richmondhill", "toronto"),
   ("scarborough", "toronto"), ("scarbrough", "toronto"),
   ("scarboro", "toronto"),
   ("etobicoke", "toronto"), ("etobico", "toronto"),
   ("north york", "toronto"), ("northyork", "toronto"),
   ("oakville", "toronto"),
   ("ajax", "toronto"),
   ("pickering", "toronto"),
   ("burlington", "toronto")]

/-- Table lookup: `GTA_CITIES[cleaned] || null`. -/
def gtaLookup (k : String) : Option String :=
  (GTA_CITIES.find? (fun e => decide (e.1 = k))).map Prod.snd

/-- The `normalizeCity` function of `src/server.js` lines 33-37: falsy input (missing
or empty) is null; otherwise the input is lowercased, trimmed, stripped
of every character outside `[a-z\s]`, whitespace runs are collapsed to
single spaces, and the result is looked up in the alias table. -/
def normalizeCity (city : Option String) : Option String :=
  match city with
  | none => none
  | some c =>
    if c = "" then none
    else
      gtaLookup (String.mk (collapseWSAux
        ((trimJS ((jsToLower c).toList)).filter
          (fun ch =>
            decide ('a'.toNat ≤ ch.toNat ∧ ch.toNat ≤ 'z'.toNat) || wsJS ch))
        false))

/-- A JSON value as the register/profile handlers see `interested_in`:
a string, an array of strings, or anything else/missing. -/
inductive JsonVal
  | str (s : String)
  | arr (l : List String)
  | missing
deriving DecidableEq, Repr

/-- The closed gender set of `src/server.js` lines 114 and 132. -/
def closedGenders : List String := ["male", "female", "non-binary"]

/-- One element of the canonicalization map of `src/server.js` lines
107-113: lowercase, trim, then map the synonyms men→male, women→female. -/
def canonInterest (v : String) : String :=
  let w := String.mk (trimJS ((jsToLower v).toList))
  if w = "men" then "male" else if w = "women" then "female" else w

/-- Set-based deduplication keeping first occurrences. -/
def dedupFirstAux : List String → List String → List String
  | [], _ => []
  | x :: rest, seen =>
    if x ∈ seen then dedupFirstAux rest seen
    else x :: dedupFirstAux rest (x :: seen)

/-- Set-based deduplication with no elements seen yet. -/
def dedupFirst (l : List String) : List String := dedupFirstAux l []

/-- The full `interested_in` normalization of `src/server.js` lines
104-116: a bare string becomes a singleton, a non-array becomes empty;
each element is canonicalized, values outside the closed set are
dropped, and duplicates are removed. -/
def canonicalInterests (interested_in : JsonVal) : List String :=
  dedupFirst (((match interested_in with
    | JsonVal.str s => [s]
    | JsonVal.arr l => l
    | JsonVal.missing => []).map canonInterest).filter
      (fun v => decide (v ∈ closedGenders)))

/-- JavaScript falsiness of an optional string field. -/
def falsyStr : Option String → Bool
  | none => true
  | some s => decide (s = "")

/-- The digits-prefix part of `parseInt`. -/
def digitsVal (l : List Char) : Option Nat :=
  if (l.takeWhile Char.isDigit) = [] then none
  else some ((l.takeWhile Char.isDigit).foldl
    (fun acc c => acc * 10 + (c.toNat - 48)) 0)

/-- JavaScript parseInt in base 10: skip whitespace, optional sign, leading
digits; `none` is NaN (and NaN comparisons are false). -/
def parseIntJS (s : String) : Option Int :=
  match s.toList.dropWhile wsJS with
  | '-' :: rest => (digitsVal rest).map (fun n => -(n : Int))
  | '+' :: rest => (digitsVal rest).map (fun n => (n : Int))
  | l => (digitsVal l).map (fun n => (n : Int))

/-- Outcome of the register validation prefix: a 400 rejection, or
`proceed` carrying exactly the city and interest values the insert of
`src/server.js` lines 164-178 stores if the remaining steps (password
policy, hashing, insert) succeed — those steps never alter the stored
values. -/
inductive RegGate
  | reject (msg : String)
  | proceed (storedCity : String) (storedInterests : List String)
deriving DecidableEq, Repr

/-- The validation prefix of POST `/api/register` (`src/server.js` lines
101-143) in source order: defensive `interested_in` normalization,
required-fields check, empty-preference check, age check (`parseInt`,
NaN compares false), closed-set gender check, then the GTA gate on
`normalizeCity`. -/
def registerGate (email username password age city gender : Option String)
    (interested_in : JsonVal) : RegGate :=
  if falsyStr email || falsyStr username || falsyStr password ||
      falsyStr age || falsyStr city || falsyStr gender then
    RegGate.reject "All fields are required"
  else if canonicalInterests interested_in = [] then
    RegGate.reject "Must select at least one preference"
  else
    match age, city, gender with
    | some a, some c, some g =>
      if (match parseIntJS a with
          | some n => decide (n < 18)
          | none => false) then
        RegGate.reject "Must be 18 or older"
      else if ¬(g ∈ closedGenders) then
        RegGate.reject "Invalid gender selection"
      else
        match normalizeCity (some c) with
        | none => RegGate.reject "Outside service area"
        | some nc => RegGate.proceed nc (canonicalInterests interested_in)
    | _, _, _ => RegGate.reject "All fields are required"

/-- The `interested_in` update of PUT `/api/profile` (`src/server.js`
lines 701-703): updated (verbatim, with no canonicalization and no
closed-set check) exactly when the value is a non-empty array; otherwise
the field is left alone (`none`). -/
def profileUpdateInterests (interested_in : JsonVal) : Option (List String) :=
  match interested_in with
  | JsonVal.arr l => if l.length > 0 then some l else none
  | _ => none

/-- C9 (code evaluation at the failing input): the alias table lists
"t.o." as a known spelling, but the cleaning step strips punctuation
before lookup, so "T.O." cleans to "to", which is not a table key — the
resolver returns none and registration is rejected as outside the
service area, while the other documented aliases resolve to the toronto
cluster and unknown/empty inputs resolve to none. -/
theorem normalizeCity_to_alias_bug :
    normalizeCity (some "T.O.") = none ∧
      normalizeCity (some "Mississauga") = some "toronto" ∧
      normalizeCity (some "  ScarBorough  ") = some "toronto" ∧
      normalizeCity (some "Waterloo") = none ∧
      normalizeCity (some "") = none ∧
      normalizeCity none = none ∧
      registerGate (some "a@b.c") (some "ali") (some "Password1!")
          (some "25") (some "T.O.") (some "female") (JsonVal.arr ["male"])
        = RegGate.reject "Outside service area" ∧
      registerGate (some "a@b.c") (some "ali") (some "Password1!")
          (some "25") (some "Mississauga") (some "female")
          (JsonVal.arr ["male"])
        = RegGate.proceed "toronto" ["male"] := by
  decide

theorem dedupFirstAux_spec :
    ∀ (l seen : List String), (dedupFirstAux l seen).Nodup ∧
      ∀ x ∈ dedupFirstAux l seen, x ∉ seen ∧ x ∈ l := by
  intro l
  induction l with
  | nil =>
    intro seen
    simp [dedupFirstAux]
  | cons y ys ih =>
    intro seen
    by_cases hy : y ∈ seen
    · rw [show dedupFirstAux (y :: ys) seen = dedupFirstAux ys seen from
        by rw [dedupFirstAux, if_pos hy]]
      obtain ⟨hn, hmem⟩ := ih seen
      exact ⟨hn, fun x hx =>
        ⟨(hmem x hx).1, List.mem_cons_of_mem _ (hmem x hx).2⟩⟩
    · rw [show dedupFirstAux (y :: ys) seen
          = y :: dedupFirstAux ys (y :: seen) from
        by rw [dedupFirstAux, if_neg hy]]
      obtain ⟨hn, hmem⟩ := ih (y :: seen)
      constructor
      · apply List.nodup_cons.mpr
        refine ⟨?_, hn⟩
        intro hxin
        exact (hmem y hxin).1 (List.mem_cons_self _ _)
      · intro x hx
        rcases List.mem_cons.mp hx with rfl | hx'
        · exact ⟨hy, List.mem_cons_self _ _⟩
        · obtain ⟨hns, hin⟩ := hmem x hx'
          exact ⟨fun hcon => hns (List.mem_cons_of_mem _ hcon),
            List.mem_cons_of_mem _ hin⟩

theorem canonicalInterests_spec (ii : JsonVal) :
    (canonicalInterests ii).Nodup ∧
      ∀ x ∈ canonicalInterests ii, x ∈ closedGenders := by
  unfold canonicalInterests dedupFirst
  obtain ⟨hn, hmem⟩ := dedupFirstAux_spec (((match ii with
    | JsonVal.str s => [s]
    | JsonVal.arr l => l
    | JsonVal.missing => []).map canonInterest).filter
      (fun v => decide (v ∈ closedGenders))) []
  refine ⟨hn, fun x hx => ?_⟩
  have hin := (hmem x hx).2
  have := (List.mem_filter.mp hin).2
  exact of_decide_eq_true this

/-- C10 counterexample: PUT `/api/profile` accepts the non-empty array
`["men"]` and stores it verbatim, although "men" is not in the closed
set {male, female, non-binary} (registration would have canonicalized it
to "male") — so not every boundary operation stores a canonical subset. -/
theorem profile_interests_unvalidated_counterexample :
    profileUpdateInterests (JsonVal.arr ["men"]) = some ["men"] ∧
      ¬("men" ∈ closedGenders) := by
  decide

/-- C10 (amended): registration stores `interested_in` only as a
non-empty duplicate-free subset of the closed set after canonicalizing
synonyms, rejecting inputs whose canonical set is empty; profile update,
however, applies no canonicalization or closed-set check — it stores any
non-empty array verbatim. -/
theorem interest_set_invariant
    (email username password age city gender : Option String)
    (ii : JsonVal) (nc : String) (stored l : List String)
    (hreg : registerGate email username password age city gender ii
      = RegGate.proceed nc stored) (hl : l ≠ []) :
    (stored ≠ [] ∧
        stored.all (fun x => decide (x ∈ closedGenders)) = true ∧
        stored.Nodup) ∧
      profileUpdateInterests (JsonVal.arr l) = some l := by
  constructor
  · unfold registerGate at hreg
    repeat' split at hreg
    all_goals try exact RegGate.noConfusion hreg
    obtain ⟨hnod, hmem⟩ := canonicalInterests_spec ii
    injection hreg with h1 h2
    subst h2
    refine ⟨?_, ?_, hnod⟩
    · assumption
    · rw [List.all_eq_true]
      intro x hx
      exact decide_eq_true (hmem x hx)
  · have hpos : l.length > 0 := by
      cases l with
      | nil => exact absurd rfl hl
      | cons a as => simp
    simp [profileUpdateInterests, hpos]

/-- Witness for the amended C10 theorem: registering with
`["men", "male"]` stores the canonical, deduplicated `["male"]`;
profile update stores `["men"]` verbatim. -/
theorem interest_set_invariant_witness :
    ((["male"] : List String) ≠ [] ∧
        (["male"] : List String).all
          (fun x => decide (x ∈ closedGenders)) = true ∧
        (["male"] : List String).Nodup) ∧
      profileUpdateInterests (JsonVal.arr ["men"]) = some ["men"] :=
  interest_set_invariant (some "a@b.c") (some "ali") (some "Password1!")
    (some "25") (some "Mississauga") (some "female")
    (JsonVal.arr ["men", "male"]) "toronto" ["male"] ["men"]
    (by decide) (by decide)

/-- A row of the `reports` table. -/
structure Report where
  reporter : String
  target : String
  reason : String
  details : Option String

/-- The moderation slice of the store: the `reports` table and the
`is_suspended` flag of each user row. -/
structure ModDB where
  reports : List Report
  suspended : String → Bool

/-- HTTP-level outcome of the report handler. -/
inductive ReportResp
  | badRequest (msg : String)
  | okSubmitted
deriving DecidableEq, Repr

/-- The closed reason set of `src/server.js` line 766. -/
def validReasons : List String := ["spam", "fake", "inappropriate", "other"]

/-- The exact count query of `src/server.js` lines 784-787: all report
rows whose `reported_id` is the target. -/
def countReportsFor (t : String) (l : List Report) : Nat :=
  (l.filter (fun r => decide (r.target = t))).length

/-- POST `/api/report` (`src/server.js` lines 758-801): validate the
reason against the closed set, insert the report (an insert error is a
400 with nothing written), recount the target's reports, and when the
count query succeeds with a count of at least 3 set `is_suspended =
true` for the target.  No path ever clears the flag. -/
def reportHandler (userId : String) (targetId reason : Option String)
    (details : Option String) (insertErr countErr : Bool) (m : ModDB) :
    ReportResp × ModDB :=
  match targetId, reason with
  | none, _ => (.badRequest "Target and reason required", m)
  | some _, none => (.badRequest "Target and reason required", m)
  | some t, some r =>
    if ¬(r ∈ validReasons) then (.badRequest "Invalid report reason", m)
    else if insertErr then (.badRequest "Failed to submit report", m)
    else if ¬countErr ∧
        3 ≤ countReportsFor t (m.reports ++ [⟨userId, t, r, details⟩]) then
      (.okSubmitted, ⟨m.reports ++ [⟨userId, t, r, details⟩],
        fun u => if u = t then true else m.suspended u⟩)
    else (.okSubmitted, ⟨m.reports ++ [⟨userId, t, r, details⟩], m.suspended⟩)

/-- C8: report-driven suspension is a monotonic one-way switch — while
the target's total report count stays below 3 a report leaves the flag
unchanged (so a false flag stays false); the report that brings the
count to 3 or more sets it to true; and no report call whatsoever (any
target, any reason, any store error) ever clears a true flag, so later
reports leave it true. -/
theorem report_suspension_monotonic (userId t r : String)
    (details : Option String) (tid rs : Option String) (ie ce : Bool)
    (m : ModDB) (hr : r ∈ validReasons) :
    (countReportsFor t (m.reports ++ [⟨userId, t, r, details⟩]) < 3 →
      ((reportHandler userId (some t) (some r) details false false m).2).suspended t
        = m.suspended t) ∧
      (3 ≤ countReportsFor t (m.reports ++ [⟨userId, t, r, details⟩]) →
        ((reportHandler userId (some t) (some r) details false false m).2).suspended t
          = true) ∧
      (m.suspended t = true →
        ((reportHandler userId tid rs details ie ce m).2).suspended t = true) := by
  refine ⟨?_, ?_, ?_⟩
  · intro hlt
    simp only [reportHandler]
    rw [if_neg (by simpa using hr)]
    rw [if_neg (by simp)]
    rw [if_neg (by
      rintro ⟨-, hge⟩
      exact absurd hge (Nat.not_le.mpr hlt))]
  · intro hge
    simp only [reportHandler]
    rw [if_neg (by simpa using hr)]
    rw [if_neg (by simp)]
    rw [if_pos ⟨by simp, hge⟩]
    simp
  · intro hsusp
    cases tid with
    | none => exact hsusp
    | some t' =>
      cases rs with
      | none => exact hsusp
      | some r' =>
        simp only [reportHandler]
        by_cases hvr : r' ∈ validReasons
        · rw [if_neg (by simpa using hvr)]
          cases ie with
          | true => exact hsusp
          | false =>
            rw [if_neg (by simp)]
            by_cases hcond : ¬ce ∧
                3 ≤ countReportsFor t' (m.reports ++ [⟨userId, t', r', details⟩])
            · rw [if_pos hcond]
              by_cases ht : t = t'
              · simp [ht]
              · simp only [ht, if_false]
                exact hsusp
            · rw [if_neg hcond]
              exact hsusp
        · rw [if_pos (by simpa using hvr)]
          exact hsusp

/-- Witness for C8: with two prior reports against the target, the third
report flips the flag; a report against someone already suspended leaves
the flag true. -/
theorem report_suspension_monotonic_witness :
    (countReportsFor "tgt"
          ([⟨"r1", "tgt", "spam", none⟩, ⟨"r2", "tgt", "fake", none⟩]
            ++ [⟨"r3", "tgt", "spam", none⟩]) < 3 →
      ((reportHandler "r3" (some "tgt") (some "spam") none false false
          ⟨[⟨"r1", "tgt", "spam", none⟩, ⟨"r2", "tgt", "fake", none⟩],
            fun _ => false⟩).2).suspended "tgt"
        = (⟨[⟨"r1", "tgt", "spam", none⟩, ⟨"r2", "tgt", "fake", none⟩],
            fun _ => false⟩ : ModDB).suspended "tgt") ∧
      (3 ≤ countReportsFor "tgt"
          ([⟨"r1", "tgt", "spam", none⟩, ⟨"r2", "tgt", "fake", none⟩]
            ++ [⟨"r3", "tgt", "spam", none⟩]) →
        ((reportHandler "r3" (some "tgt") (some "spam") none false false
            ⟨[⟨"r1", "tgt", "spam", none⟩, ⟨"r2", "tgt", "fake", none⟩],
              fun _ => false⟩).2).suspended "tgt" = true) ∧
      ((⟨[⟨"r1", "tgt", "spam", none⟩, ⟨"r2", "tgt", "fake", none⟩],
            fun _ => false⟩ : ModDB).suspended "tgt" = true →
        ((reportHandler "r3" (some "other") (some "spam") none false true
            ⟨[⟨"r1", "tgt", "spam", none⟩, ⟨"r2", "tgt", "fake", none⟩],
              fun _ => false⟩).2).suspended "tgt" = true) :=
  report_suspension_monotonic "r3" "tgt" "spam" none (some "other")
    (some "spam") false true
    ⟨[⟨"r1", "tgt", "spam", none⟩, ⟨"r2", "tgt", "fake", none⟩],
      fun _ => false⟩ (by decide)

/-- A rate class configuration: `{windowMs, max}`. -/
structure RateConfig where
  windowMs : Nat
  max : Nat
deriving DecidableEq, Repr

/-- The counter of one (scope key, class): window start and hit count. -/
structure WindowState where
  windowStart : Nat
  count : Nat
deriving DecidableEq, Repr

/-- Result of a rate check; a denial carries the retry-after duration. -/
inductive RateResult
  | allowed
  | rateExceeded (retryAfterMs : Nat)
deriving DecidableEq, Repr

/-- Modelled from the spec: `RateGovernor.check` / the counter
collaborator's `incrementAndCheck` (spec sections 4.3 and 6) — the
algorithm lives in the external express-rate-limit dependency, of which
the repository only holds configurations.  Fixed window: a call inside
the live window increments the counter and passes while the count stays
within `max`; a call after the window has elapsed resets to a fresh
window with count 1; a denial carries the remaining window time. -/
def rateCheckCell (cfg : RateConfig) (now : Nat) (st : Option WindowState) :
    RateResult × WindowState :=
  match st with
  | some w =>
    if now < w.windowStart + cfg.windowMs then
      if w.count + 1 ≤ cfg.max then (.allowed, ⟨w.windowStart, w.count + 1⟩)
      else (.rateExceeded (w.windowStart + cfg.windowMs - now),
        ⟨w.windowStart, w.count + 1⟩)
    else
      if 1 ≤ cfg.max then (.allowed, ⟨now, 1⟩)
      else (.rateExceeded cfg.windowMs, ⟨now, 1⟩)
  | none =>
    if 1 ≤ cfg.max then (.allowed, ⟨now, 1⟩)
    else (.rateExceeded cfg.windowMs, ⟨now, 1⟩)

/-- Cell state after `n` consecutive checks at time `now`. -/
def cellAfterCalls (cfg : RateConfig) (now : Nat) :
    Nat → Option WindowState → Option WindowState
  | 0, st => st
  | n + 1, st => some (rateCheckCell cfg now (cellAfterCalls cfg now n st)).2

/-- All of the first `n` consecutive checks at time `now` pass. -/
def callsAllAllowed (cfg : RateConfig) (now : Nat) :
    Nat → Option WindowState → Bool
  | 0, _ => true
  | n + 1, st =>
    (match (rateCheckCell cfg now (cellAfterCalls cfg now n st)).1 with
      | RateResult.allowed => true
      | RateResult.rateExceeded _ => false) && callsAllAllowed cfg now n st

/-- The counter store, keyed by (scope key, abuse class). -/
def GovStore := List ((String × String) × WindowState)

/-- Read the counter of one (scope key, class). -/
def govLookup (g : GovStore) (k : String × String) : Option WindowState :=
  (List.find? (fun e => decide (e.1 = k)) g).map Prod.snd

/-- Write the counter of one (scope key, class). -/
def govUpdate (g : GovStore) (k : String × String) (w : WindowState) :
    GovStore :=
  (k, w) :: List.filter (fun e => !(decide (e.1 = k))) g

/-- One governor check: read, step, write back — only the checked
(scope key, class) cell is touched. -/
def govCheck (cfg : RateConfig) (key cls : String) (now : Nat)
    (g : GovStore) : RateResult × GovStore :=
  ((rateCheckCell cfg now (govLookup g (key, cls))).1,
    govUpdate g (key, cls) (rateCheckCell cfg now (govLookup g (key, cls))).2)

/-- Rate limiter configurations of `src/middleware/rateLimiter.js`
lines 4-44: swipes 100/hour, messages 50/hour, signups 3/day,
uploads 10/hour, baseline 100 per 15 minutes. -/
def swipeLimiterCfg : RateConfig := ⟨3600000, 100⟩

/-- Message limiter of `src/middleware/rateLimiter.js` lines 12-18. -/
def messageLimiterCfg : RateConfig := ⟨3600000, 50⟩

/-- Signup limiter of `src/middleware/rateLimiter.js` lines 20-28. -/
def signupLimiterCfg : RateConfig := ⟨86400000, 3⟩

/-- Upload limiter of `src/middleware/rateLimiter.js` lines 30-36. -/
def uploadLimiterCfg : RateConfig := ⟨3600000, 10⟩

/-- Default limiter of `src/middleware/rateLimiter.js` lines 38-44. -/
def defaultLimiterCfg : RateConfig := ⟨900000, 100⟩

/-- Second variant (`src/routes/legal.js` lines 37-72): global
100 per 15 minutes. -/
def globalLimiterCfg : RateConfig := ⟨900000, 100⟩

/-- Auth limiter of the second variant: 5 per 15 minutes. -/
def authLimiterCfg : RateConfig := ⟨900000, 5⟩

/-- Swipe limiter of the second variant: 30 per minute. -/
def swipeLimiterCfgLegal : RateConfig := ⟨60000, 30⟩

/-- Message limiter of the second variant: 10 per minute. -/
def messageLimiterCfgLegal : RateConfig := ⟨60000, 10⟩

/-- Upload limiter of the second variant: 20 per hour. -/
def uploadLimiterCfgLegal : RateConfig := ⟨3600000, 20⟩

theorem cellAfter_fresh (cfg : RateConfig) (now : Nat)
    (hw : 1 ≤ cfg.windowMs) :
    ∀ k, cellAfterCalls cfg now (k + 1) none = some ⟨now, k + 1⟩ := by
  intro k
  induction k with
  | zero =>
    show some (rateCheckCell cfg now (cellAfterCalls cfg now 0 none)).2 = _
    simp only [cellAfterCalls, rateCheckCell]
    split <;> rfl
  | succ k' ih =>
    show some (rateCheckCell cfg now
      (cellAfterCalls cfg now (k' + 1) none)).2 = _
    rw [ih]
    simp only [rateCheckCell]
    rw [if_pos (by omega)]
    split <;> rfl

theorem rate_call_allowed (cfg : RateConfig) (now : Nat)
    (hw : 1 ≤ cfg.windowMs) :
    ∀ k, k + 1 ≤ cfg.max →
      (rateCheckCell cfg now (cellAfterCalls cfg now k none)).1
        = RateResult.allowed := by
  intro k hk
  cases k with
  | zero =>
    simp only [cellAfterCalls, rateCheckCell]
    rw [if_pos hk]
  | succ k' =>
    rw [cellAfter_fresh cfg now hw k']
    simp only [rateCheckCell]
    rw [if_pos (by omega), if_pos (by omega)]

theorem rate_calls_all_allowed (cfg : RateConfig) (now : Nat)
    (hw : 1 ≤ cfg.windowMs) :
    ∀ n, n ≤ cfg.max → callsAllAllowed cfg now n none = true := by
  intro n
  induction n with
  | zero =>
    intro _
    rfl
  | succ k ih =>
    intro hk
    unfold callsAllAllowed
    rw [rate_call_allowed cfg now hw k hk, ih (by omega)]
    rfl

theorem find?_filter_of_imp {α : Type} (p q : α → Bool) :
    ∀ l : List α, (∀ e, p e = true → q e = true) →
      (l.filter q).find? p = l.find? p := by
  intro l himp
  induction l with
  | nil => rfl
  | cons x xs ih =>
    by_cases hq : q x = true
    · rw [List.filter_cons_of_pos hq]
      by_cases hp : p x = true
      · rw [List.find?_cons_of_pos _ hp, List.find?_cons_of_pos _ hp]
      · rw [List.find?_cons_of_neg _ (by simpa using hp),
          List.find?_cons_of_neg _ (by simpa using hp)]
        exact ih
    · have hp : p x = false := by
        cases hpx : p x
        · rfl
        · exact absurd (himp x hpx) hq
      rw [List.filter_cons_of_neg (by simpa using hq),
        List.find?_cons_of_neg _ (by simp [hp])]
      exact ih

theorem govLookup_update_other (g : GovStore) (k k' : String × String)
    (w : WindowState) (hk : k' ≠ k) :
    govLookup (govUpdate g k w) k' = govLookup g k' := by
  unfold govLookup govUpdate
  rw [List.find?_cons_of_neg _ (by simpa using Ne.symm hk)]
  rw [find?_filter_of_imp _ _ g (by
    intro e he
    have : e.1 = k' := of_decide_eq_true he
    simp [this, hk])]

/-- C7 (spec-modelled governor over the source configurations): from a
fresh key, the first `max` checks in one window all pass; the
(max+1)-th check in the same window is denied with RateExceeded carrying
the remaining window (retry-after); a check made once the window has
elapsed passes again; and a check of one (scope key, class) leaves every
other (scope key, class) counter in the store untouched, so exhausting
one class's budget cannot affect another's. -/
theorem rate_governor_window (cfg : RateConfig) (key cls key2 cls2 : String)
    (now n : Nat) (g : GovStore)
    (hmax : 1 ≤ cfg.max) (hw : 1 ≤ cfg.windowMs) (hn : n ≤ cfg.max)
    (hk : (key2, cls2) ≠ (key, cls)) :
    callsAllAllowed cfg now n none = true ∧
      (rateCheckCell cfg now (cellAfterCalls cfg now cfg.max none)).1
        = RateResult.rateExceeded cfg.windowMs ∧
      (rateCheckCell cfg (now + cfg.windowMs)
          (cellAfterCalls cfg now (cfg.max + 1) none)).1
        = RateResult.allowed ∧
      govLookup ((govCheck cfg key cls now g).2) (key2, cls2)
        = govLookup g (key2, cls2) := by
  refine ⟨rate_calls_all_allowed cfg now hw n hn, ?_, ?_, ?_⟩
  · obtain ⟨m, hm⟩ : ∃ m, cfg.max = m + 1 := ⟨cfg.max - 1, by omega⟩
    rw [hm, cellAfter_fresh cfg now hw m]
    simp only [rateCheckCell]
    rw [if_pos (by omega), if_neg (by omega)]
    have harg : now + cfg.windowMs - now = cfg.windowMs := by omega
    simp [harg]
  · rw [cellAfter_fresh cfg now hw cfg.max]
    simp only [rateCheckCell]
    rw [if_neg (by omega), if_pos hmax]
  · exact govLookup_update_other g (key, cls) (key2, cls2) _ hk

/-- Witness for C7 at the signup limiter configuration (3 per day per
IP) and concrete keys. -/
theorem rate_governor_window_witness :
    callsAllAllowed signupLimiterCfg 1000 3 none = true ∧
      (rateCheckCell signupLimiterCfg 1000
          (cellAfterCalls signupLimiterCfg 1000 signupLimiterCfg.max none)).1
        = RateResult.rateExceeded signupLimiterCfg.windowMs ∧
      (rateCheckCell signupLimiterCfg (1000 + signupLimiterCfg.windowMs)
          (cellAfterCalls signupLimiterCfg 1000
            (signupLimiterCfg.max + 1) none)).1
        = RateResult.allowed ∧
      govLookup ((govCheck signupLimiterCfg "ip1" "signup" 1000
            [(("ip1", "swipe"), ⟨500, 7⟩)]).2) ("ip1", "swipe")
        = govLookup [(("ip1", "swipe"), ⟨500, 7⟩)] ("ip1", "swipe") :=
  rate_governor_window signupLimiterCfg "ip1" "signup" "ip1" "swipe"
    1000 3 [(("ip1", "swipe"), ⟨500, 7⟩)] (by decide) (by decide)
    (by decide) (by decide)
